import Mathlib

/-!
Verification development for the mindmap/booking backend (`src/main.py`).

The backend keeps three MongoDB collections:
  * `class_collection`   : one document per class (`ClassList` pydantic model);
  * `booking_collection` : one document per class_id holding the `bookings`
    and `waitlist` arrays of reservation subdocuments;
  * `roadmaps_collection`: one document per email holding a list of
    `{title, nodes, edges}` roadmaps.

We embed the collections as Lean lists of structures.  Mongo's `find_one`
returns the first matching document, `update_one` updates the first matching
document, and `$pull` removes every array element matching its condition;
the helpers below (`List.find?`, `updateFirst`, `List.filter`) mirror those
semantics.  Missing array fields (a booking document freshly upserted with
only one of its two arrays) are modelled as `[]`, which is observationally
equivalent because the Python code always reads them with `.get(..., [])`
or a truthiness check.
-/

/-- Reservation subdocument stored in a booking document's `bookings` or
`waitlist` array; fields as in the `Booking` pydantic model. -/
structure Reservation where
  class_id : String
  class_name : String
  user_name : String
  user_id : String
  booking_date : String
deriving DecidableEq, Repr

/-- Class document (`ClassList` pydantic model). -/
structure ClassRecord where
  class_name : String
  class_id : String
  class_description : String
  icon : String
  color : String
  total_slots : Int
  bookings : Int
  waitlist : Int
deriving DecidableEq, Repr

/-- Booking document of `booking_collection`: per class_id, the confirmed
`bookings` array and the FIFO `waitlist` array. -/
structure BookingRecord where
  class_id : String
  bookings : List Reservation
  waitlist : List Reservation
deriving DecidableEq, Repr

/-- The two collections the booking engine mutates. -/
structure Store where
  classes : List ClassRecord
  bookingDocs : List BookingRecord
deriving DecidableEq, Repr

def emptyStore : Store := ⟨[], []⟩

/-- Mongo `update_one`: apply `f` to the first element satisfying `p`,
leave everything else unchanged. -/
def updateFirst (p : α → Bool) (f : α → α) : List α → List α
  | [] => []
  | x :: xs => if p x then f x :: xs else x :: updateFirst p f xs

/-- Mongo `find_one({"class_id": cid})` on `class_collection`. -/
def findClass (st : Store) (cid : String) : Option ClassRecord :=
  st.classes.find? (fun c => c.class_id == cid)

/-- Mongo `find_one({"class_id": cid})` on `booking_collection`. -/
def findDoc (st : Store) (cid : String) : Option BookingRecord :=
  st.bookingDocs.find? (fun d => d.class_id == cid)

/-- The confirmed-bookings array of the class's booking document
(`booking_info.get("bookings", [])`). -/
def bookingsList (st : Store) (cid : String) : List Reservation :=
  ((findDoc st cid).map (fun d => d.bookings)).getD []

/-- The waitlist array of the class's booking document
(`booking_info.get("waitlist", [])`). -/
def waitlistList (st : Store) (cid : String) : List Reservation :=
  ((findDoc st cid).map (fun d => d.waitlist)).getD []

inductive CreateResult
  | duplicateKey
  | ok
deriving DecidableEq, Repr

/-- The `POST /create_class/` handler `create_class`: 400 if the class_id
already exists, otherwise insert the class document as given. -/
def create_class (st : Store) (class_data : ClassRecord) : Store × CreateResult :=
  if (st.classes.find? (fun c => c.class_id == class_data.class_id)).isSome then
    (st, .duplicateKey)
  else
    ({st with classes := st.classes ++ [class_data]}, .ok)

inductive BookResult
  | classNotFound
  | waitlisted
  | confirmed
deriving DecidableEq, Repr

/-- Mongo `update_one({"class_id": cid}, {"$push": ...}, upsert=True)` on
`booking_collection`: push into the first matching document, or insert a
fresh document (query field plus the pushed array) when none matches. -/
def upsertPush (cid : String) (f : BookingRecord → BookingRecord)
    (fresh : BookingRecord) (docs : List BookingRecord) : List BookingRecord :=
  if (docs.find? (fun d => d.class_id == cid)).isSome then
    updateFirst (fun d => d.class_id == cid) f docs
  else
    docs ++ [fresh]

/-- The `POST /book_slot/` handler `book_slot`. -/
def book_slot (st : Store) (booking : Reservation) : Store × BookResult :=
  match st.classes.find? (fun c => c.class_id == booking.class_id) with
  | none => (st, .classNotFound)
  | some class_info =>
    let booking_data := {booking with class_name := class_info.class_name}
    if class_info.bookings ≥ class_info.total_slots then
      let docs := upsertPush booking.class_id
        (fun d => {d with waitlist := d.waitlist ++ [booking_data]})
        {class_id := booking.class_id, bookings := [], waitlist := [booking_data]}
        st.bookingDocs
      let classes := updateFirst (fun c => c.class_id == booking.class_id)
        (fun c => {c with waitlist := c.waitlist + 1}) st.classes
      ({classes := classes, bookingDocs := docs}, .waitlisted)
    else
      let docs := upsertPush booking.class_id
        (fun d => {d with bookings := d.bookings ++ [booking_data]})
        {class_id := booking.class_id, bookings := [booking_data], waitlist := []}
        st.bookingDocs
      let classes := updateFirst (fun c => c.class_id == booking.class_id)
        (fun c => {c with bookings := c.bookings + 1}) st.classes
      ({classes := classes, bookingDocs := docs}, .confirmed)

inductive CancelResult
  | classNotFound
  | bookingNotFound
  | updateFailed
  | canceledWaitlistUpdated
  | canceled
deriving DecidableEq, Repr

/-- The `POST /cancel_booking/` handler `cancel_booking`.

The Python code issues the `$pull` and then tests `modified_count == 0`;
the pull modifies nothing exactly when no bookings entry has the given
`user_id`, in which case the state is unchanged, so we test that first.
The `$inc` on the class document has `modified_count == 0` exactly when no
class document matches or the increment is zero. -/
def cancel_booking (st : Store) (class_id user_id : String) : Store × CancelResult :=
  match st.bookingDocs.find? (fun d => d.class_id == class_id) with
  | none => (st, .classNotFound)
  | some booking_info =>
    let current_bookings_count := booking_info.bookings.length
    if booking_info.bookings.all (fun r => !(r.user_id == user_id)) then
      (st, .bookingNotFound)
    else
      let docs1 := updateFirst (fun d => d.class_id == class_id)
        (fun d => {d with bookings := d.bookings.filter (fun r => !(r.user_id == user_id))})
        st.bookingDocs
      let st1 : Store := {st with bookingDocs := docs1}
      let bookings_removed : Int :=
        (current_bookings_count : Int) - ((bookingsList st1 class_id).length : Int)
      let classes2 := updateFirst (fun c => c.class_id == class_id)
        (fun c => {c with bookings := c.bookings - bookings_removed}) st1.classes
      let st2 : Store := {st1 with classes := classes2}
      if ((st1.classes.find? (fun c => c.class_id == class_id)).isSome
            && !(bookings_removed == 0)) = false then
        (st2, .updateFailed)
      else
        match booking_info.waitlist with
        | [] => (st2, .canceled)
        | waitlist_entry :: _ =>
          let docs3 := updateFirst (fun d => d.class_id == class_id)
            (fun d => {d with bookings := d.bookings ++ [waitlist_entry],
                              waitlist := d.waitlist.filter (fun r => !(r == waitlist_entry))})
            st2.bookingDocs
          let classes4 := updateFirst (fun c => c.class_id == class_id)
            (fun c => {c with waitlist := c.waitlist - 1, bookings := c.bookings + 1})
            st2.classes
          ({classes := classes4, bookingDocs := docs3}, .canceledWaitlistUpdated)

/-- One row of the `GET /user_bookings/{user_id}` response. -/
structure UserBookingView where
  class_id : String
  class_name : String
  booking_date : String
deriving DecidableEq, Repr

/-- The `GET /user_bookings/{user_id}` handler `fetch_user_bookings`:
find the booking documents whose `bookings` array contains the user,
flatten the matching confirmed reservations, 404 when the result is empty. -/
def fetch_user_bookings (st : Store) (user_id : String) :
    Except Nat (List UserBookingView) :=
  let docs := st.bookingDocs.filter (fun d => d.bookings.any (fun r => r.user_id == user_id))
  let results := docs.flatMap (fun d =>
    (d.bookings.filter (fun r => r.user_id == user_id)).map
      (fun r => {class_id := d.class_id, class_name := r.class_name,
                 booking_date := r.booking_date}))
  if results.isEmpty then .error 404 else .ok results

/-! ## Roadmap store

A document of `roadmaps_collection` is `{email, roadmaps: [{title, nodes,
edges}, ...]}`.  The `nodes` and `edges` payloads are arbitrary JSON
objects the code never inspects, so we keep their element type as a
parameter `α`. -/

/-- One `{title, nodes, edges}` entry of a user's `roadmaps` array. -/
structure Roadmap (α : Type) where
  title : String
  nodes : List α
  edges : List α
deriving DecidableEq, Repr

/-- One document of `roadmaps_collection`. -/
structure UserRoadmaps (α : Type) where
  email : String
  roadmaps : List (Roadmap α)
deriving DecidableEq, Repr

/-- The `for ... if title matches: overwrite; break / else: append` loop of
`save_roadmap`: replace the nodes/edges of the first roadmap with the given
title, or append a new roadmap when no title matches. -/
def upsertRoadmap (rs : List (Roadmap α)) (title : String) (nodes edges : List α) :
    List (Roadmap α) :=
  if rs.any (fun r => r.title == title) then
    updateFirst (fun r => r.title == title)
      (fun r => {r with nodes := nodes, edges := edges}) rs
  else
    rs ++ [{title := title, nodes := nodes, edges := edges}]

/-- The `save_roadmap` function: update the first document matching the
email (`find_one` and `update_one` both address the first match), or insert
a fresh document when the user has none. -/
def save_roadmap (col : List (UserRoadmaps α)) (email title : String)
    (nodes edges : List α) : List (UserRoadmaps α) :=
  if (col.find? (fun u => u.email == email)).isSome then
    updateFirst (fun u => u.email == email)
      (fun u => {u with roadmaps := upsertRoadmap u.roadmaps title nodes edges}) col
  else
    col ++ [{email := email, roadmaps := [{title := title, nodes := nodes, edges := edges}]}]

/-- The roadmaps array of the (first) document with the given email. -/
def roadmapsOf (col : List (UserRoadmaps α)) (email : String) : List (Roadmap α) :=
  (((col.find? (fun u => u.email == email))).map (fun u => u.roadmaps)).getD []

/-- Body of the `fetch_roadmap` handler up to and including the
`raise HTTPException(status_code=404, ...)`: the HTTP status it raises or
the `{nodes, edges}` payload it returns. -/
def fetch_roadmap_inner (col : List (UserRoadmaps α)) (email project_title : String) :
    Except Nat (List α × List α) :=
  match col.find? (fun u => u.email == email) with
  | some user_roadmaps =>
    match user_roadmaps.roadmaps.find? (fun r => r.title == project_title) with
    | some roadmap => .ok (roadmap.nodes, roadmap.edges)
    | none => .error 404
  | none => .error 404

/-- The `GET /roadmap/fetch/{email}/{project_title}` handler as deployed:
the body runs inside `try: ... except Exception as e: raise
HTTPException(500, ...)`, and `fastapi.HTTPException` is a subclass of
`Exception`, so the handler's own 404 is caught by the blanket `except`
and re-raised as a 500. -/
def fetch_roadmap (col : List (UserRoadmaps α)) (email project_title : String) :
    Except Nat (List α × List α) :=
  match fetch_roadmap_inner col email project_title with
  | .ok v => .ok v
  | .error _ => .error 500

/-! ## Serial operation sequences and the counter invariant -/

/-- One serial API call against the booking engine.  `register` carries the
spec-level `RegisterClass` arguments; the pydantic defaults fill in
`bookings = 0, waitlist = 0`. -/
inductive Op
  | register (class_id class_name class_description icon color : String) (total_slots : Int)
  | book (booking : Reservation)
  | cancel (class_id user_id : String)
deriving DecidableEq, Repr

def applyOp (st : Store) : Op → Store
  | .register cid cname cdesc icon color slots =>
      (create_class st {class_name := cname, class_id := cid, class_description := cdesc,
                        icon := icon, color := color, total_slots := slots,
                        bookings := 0, waitlist := 0}).1
  | .book b => (book_slot st b).1
  | .cancel cid uid => (cancel_booking st cid uid).1

def runOps (ops : List Op) : Store := ops.foldl applyOp emptyStore

/-- The spec's cross-entity invariant at one class document: the class's
counters equal the lengths of the corresponding booking-document arrays
(both `0` when the class has no booking document yet). -/
def classConsistent (docs : List BookingRecord) (c : ClassRecord) : Bool :=
  match docs.find? (fun d => d.class_id == c.class_id) with
  | some d => c.bookings == (d.bookings.length : Int) && c.waitlist == (d.waitlist.length : Int)
  | none => c.bookings == 0 && c.waitlist == 0

/-- The spec's cross-entity invariant: every class document is consistent
with the booking collection. -/
def storeInv (st : Store) : Bool :=
  st.classes.all (classConsistent st.bookingDocs)

/-- Side condition under which a `BookSlot` call is benign for the
invariant: when the class is full, the reservation document about to be
pushed must not already occur in that class's waitlist (Mongo's `$pull`
during a later promotion removes every array element equal to the head,
so a duplicated waitlist entry breaks the counters). -/
def bookSafeB (st : Store) (b : Reservation) : Bool :=
  match findClass st b.class_id with
  | some c =>
    if c.bookings ≥ c.total_slots then
      !(decide ({b with class_name := c.class_name} ∈ waitlistList st b.class_id))
    else true
  | none => true

def opSafe (st : Store) : Op → Bool
  | .book b => bookSafeB st b
  | _ => true

/-- Every step of the sequence satisfies `opSafe` in the state it runs in. -/
def safeRun : Store → List Op → Bool
  | _, [] => true
  | st, op :: rest => opSafe st op && safeRun (applyOp st op) rest

/-- Strengthened invariant carried through the induction: the counter
invariant, uniqueness of class ids, every booking document backed by a
class document, and duplicate-free waitlists. -/
def EngineInv (st : Store) : Prop :=
  storeInv st = true ∧
  (st.classes.map (fun c => c.class_id)).Nodup ∧
  (∀ d ∈ st.bookingDocs, d.class_id ∈ st.classes.map (fun c => c.class_id)) ∧
  (∀ d ∈ st.bookingDocs, d.waitlist.Nodup)

/-- Spec-side description of `ListUserBookings` (refinement reference for
the claim about `fetch_user_bookings`): one `{class_id, class_name,
booking_date}` row per confirmed reservation matching the user, scanning
all booking documents; waitlist entries are not consulted. -/
def userBookingsSpec (st : Store) (user_id : String) : List UserBookingView :=
  st.bookingDocs.flatMap (fun d =>
    (d.bookings.filter (fun r => r.user_id == user_id)).map
      (fun r => {class_id := d.class_id, class_name := r.class_name,
                 booking_date := r.booking_date}))

/-- Number of roadmaps with the given title in a roadmaps array. -/
def countTitled (rs : List (Roadmap α)) (title : String) : Nat :=
  (rs.filter (fun r => r.title == title)).length

/-- Sample reservation for concrete witnesses. -/
def sampleRes (cid uid : String) : Reservation :=
  {class_id := cid, class_name := "Yoga", user_name := uid, user_id := uid,
   booking_date := "2026-01-01"}

/-- Sample class document for concrete witnesses. -/
def sampleClass (cid : String) (slots booked waiting : Int) : ClassRecord :=
  {class_name := "Yoga", class_id := cid, class_description := "d", icon := "i",
   color := "c", total_slots := slots, bookings := booked, waitlist := waiting}

/-! ## List toolkit: `updateFirst` and `find?` -/

theorem updateFirst_of_find?_none {p : α → Bool} (f : α → α) {l : List α}
    (h : l.find? p = none) : updateFirst p f l = l := by
  induction l with
  | nil => rfl
  | cons x xs ih =>
    by_cases hx : p x = true
    · rw [List.find?_cons_of_pos _ hx] at h
      exact absurd h (by simp)
    · rw [List.find?_cons_of_neg _ hx] at h
      simp only [updateFirst, if_neg hx, ih h]

theorem updateFirst_decomp {p : α → Bool} (f : α → α) {l : List α} {y : α}
    (h : l.find? p = some y) :
    ∃ l₁ l₂, l = l₁ ++ y :: l₂ ∧ (∀ x ∈ l₁, p x = false) ∧ p y = true ∧
      updateFirst p f l = l₁ ++ f y :: l₂ := by
  induction l with
  | nil => simp at h
  | cons x xs ih =>
    by_cases hx : p x = true
    · rw [List.find?_cons_of_pos _ hx] at h
      injection h with h
      subst h
      exact ⟨[], xs, rfl, by simp, hx, by simp [updateFirst, hx]⟩
    · rw [List.find?_cons_of_neg _ hx] at h
      obtain ⟨l₁, l₂, rfl, h1, h2, h3⟩ := ih h
      refine ⟨x :: l₁, l₂, rfl, ?_, h2, ?_⟩
      · intro z hz
        rcases List.mem_cons.mp hz with rfl | hz
        · simpa using hx
        · exact h1 z hz
      · simp only [updateFirst, if_neg hx, h3, List.cons_append]

theorem find?_updateFirst_pos {p : α → Bool} {f : α → α} {l : List α} {y : α}
    (h : l.find? p = some y) (hf : p (f y) = true) :
    (updateFirst p f l).find? p = some (f y) := by
  induction l with
  | nil => simp at h
  | cons x xs ih =>
    by_cases hx : p x = true
    · rw [List.find?_cons_of_pos _ hx] at h
      injection h with h
      subst h
      simp only [updateFirst, if_pos hx]
      exact List.find?_cons_of_pos _ hf
    · rw [List.find?_cons_of_neg _ hx] at h
      simp only [updateFirst, if_neg hx]
      rw [List.find?_cons_of_neg _ hx]
      exact ih h

theorem find?_updateFirst_neg {p q : α → Bool} {f : α → α} (l : List α)
    (hpq : ∀ x, p x = true → q x = false) (hqf : ∀ x, q (f x) = q x) :
    (updateFirst p f l).find? q = l.find? q := by
  induction l with
  | nil => rfl
  | cons x xs ih =>
    by_cases hx : p x = true
    · simp only [updateFirst, if_pos hx]
      have hq : q x = false := hpq x hx
      have hqfx : q (f x) = false := (hqf x).trans hq
      rw [List.find?_cons_of_neg _ (by simp [hqfx]), List.find?_cons_of_neg _ (by simp [hq])]
    · simp only [updateFirst, if_neg hx]
      by_cases hqx : q x = true
      · rw [List.find?_cons_of_pos _ hqx, List.find?_cons_of_pos _ hqx]
      · rw [List.find?_cons_of_neg _ hqx, List.find?_cons_of_neg _ hqx, ih]

theorem map_updateFirst (g : α → β) {p : α → Bool} {f : α → α} (l : List α)
    (h : ∀ x, g (f x) = g x) : (updateFirst p f l).map g = l.map g := by
  induction l with
  | nil => rfl
  | cons x xs ih =>
    by_cases hx : p x = true
    · simp only [updateFirst, if_pos hx, List.map_cons, h x]
    · simp only [updateFirst, if_neg hx, List.map_cons, ih]

theorem updateFirst_updateFirst {p : α → Bool} (f g : α → α) (l : List α)
    (hp : ∀ x, p x = true → p (f x) = true) :
    updateFirst p g (updateFirst p f l) = updateFirst p (fun x => g (f x)) l := by
  induction l with
  | nil => rfl
  | cons x xs ih =>
    by_cases hx : p x = true
    · simp only [updateFirst, if_pos hx, if_pos (hp x hx)]
    · simp only [updateFirst, if_neg hx, ih]

theorem find?_append_some {p : α → Bool} {l₁ : List α} (l₂ : List α) {y : α}
    (h : l₁.find? p = some y) : (l₁ ++ l₂).find? p = some y := by
  rw [List.find?_append, h]
  rfl

theorem find?_append_none {p : α → Bool} {l₁ : List α} (l₂ : List α)
    (h : l₁.find? p = none) : (l₁ ++ l₂).find? p = l₂.find? p := by
  rw [List.find?_append, h]
  rfl

/-! ## Claim C5: duplicate class registration -/

/-- C5: when a class with the given class_id already exists, a second
`RegisterClass` (`create_class`) fails with DuplicateKey (HTTP 400) and
returns the store unchanged: no ClassRecord or BookingRecord is created or
modified. -/
theorem create_class_duplicate {st : Store} {data : ClassRecord} {c0 : ClassRecord}
    (h : findClass st data.class_id = some c0) :
    create_class st data = (st, CreateResult.duplicateKey) := by
  unfold findClass at h
  simp [create_class, h]

/-- Witness for C5 at a concrete store. -/
theorem create_class_duplicate_witness :
    create_class ⟨[sampleClass "c1" 5 0 0], []⟩ (sampleClass "c1" 3 0 0)
      = (⟨[sampleClass "c1" 5 0 0], []⟩, CreateResult.duplicateKey) :=
  @create_class_duplicate ⟨[sampleClass "c1" 5 0 0], []⟩ (sampleClass "c1" 3 0 0)
    (sampleClass "c1" 5 0 0) (by decide)

/-! ## Claim C2: BookSlot on a full class -/

/-- C2: when the class exists and `bookings ≥ total_slots`, `book_slot`
returns Waitlisted, appends the denormalized reservation to the class's
waitlist array (creating the booking document when absent), increments the
class's waitlist counter by 1, and leaves both the confirmed-bookings array
and the bookings counter unchanged — in particular `bookings` is never
pushed past `total_slots`. -/
theorem book_slot_full_waitlists {st : Store} {b : Reservation} {c : ClassRecord}
    (hc : findClass st b.class_id = some c)
    (hfull : c.total_slots ≤ c.bookings) :
    (book_slot st b).2 = BookResult.waitlisted ∧
    waitlistList (book_slot st b).1 b.class_id
      = waitlistList st b.class_id ++ [{b with class_name := c.class_name}] ∧
    bookingsList (book_slot st b).1 b.class_id = bookingsList st b.class_id ∧
    findClass (book_slot st b).1 b.class_id = some {c with waitlist := c.waitlist + 1} := by
  unfold findClass at hc
  have hstep : book_slot st b =
      ({classes := updateFirst (fun x => x.class_id == b.class_id)
          (fun x => {x with waitlist := x.waitlist + 1}) st.classes,
        bookingDocs := upsertPush b.class_id
          (fun d => {d with waitlist := d.waitlist ++ [{b with class_name := c.class_name}]})
          {class_id := b.class_id, bookings := [],
           waitlist := [{b with class_name := c.class_name}]} st.bookingDocs},
       BookResult.waitlisted) := by
    unfold book_slot
    rw [hc]
    simp only [ge_iff_le, if_pos hfull]
  refine ⟨by rw [hstep], ?_, ?_, ?_⟩
  · rw [hstep]
    unfold waitlistList findDoc upsertPush
    cases hfd : st.bookingDocs.find? (fun d => d.class_id == b.class_id) with
    | none =>
      simp only [hfd, Option.isSome_none, Bool.false_eq_true, if_false]
      rw [find?_append_none _ hfd]
      simp
    | some d =>
      have hpd := List.find?_some hfd
      simp only [hfd, Option.isSome_some, if_true]
      rw [find?_updateFirst_pos hfd (by simpa using hpd)]
      simp
  · rw [hstep]
    unfold bookingsList findDoc upsertPush
    cases hfd : st.bookingDocs.find? (fun d => d.class_id == b.class_id) with
    | none =>
      simp only [hfd, Option.isSome_none, Bool.false_eq_true, if_false]
      rw [find?_append_none _ hfd]
      simp
    | some d =>
      have hpd := List.find?_some hfd
      simp only [hfd, Option.isSome_some, if_true]
      rw [find?_updateFirst_pos hfd (by simpa using hpd)]
      simp
  · rw [hstep]
    unfold findClass
    have hpc := List.find?_some hc
    rw [find?_updateFirst_pos hc (by simpa using hpc)]

/-- Witness for C2: one-slot class already full, second booking waitlisted. -/
theorem book_slot_full_waitlists_witness :
    (book_slot ⟨[sampleClass "c1" 1 1 0],
        [⟨"c1", [sampleRes "c1" "u1"], []⟩]⟩ (sampleRes "c1" "u2")).2
      = BookResult.waitlisted ∧
    waitlistList (book_slot ⟨[sampleClass "c1" 1 1 0],
        [⟨"c1", [sampleRes "c1" "u1"], []⟩]⟩ (sampleRes "c1" "u2")).1
        (sampleRes "c1" "u2").class_id
      = waitlistList ⟨[sampleClass "c1" 1 1 0],
          [⟨"c1", [sampleRes "c1" "u1"], []⟩]⟩ (sampleRes "c1" "u2").class_id
        ++ [{sampleRes "c1" "u2" with class_name := (sampleClass "c1" 1 1 0).class_name}] := by
  have h := @book_slot_full_waitlists
    ⟨[sampleClass "c1" 1 1 0], [⟨"c1", [sampleRes "c1" "u1"], []⟩]⟩
    (sampleRes "c1" "u2") (sampleClass "c1" 1 1 0) (by decide) (by decide)
  exact ⟨h.1, h.2.1⟩

/-! ## Claim C7: ListUserBookings -/

theorem flatMap_filter_congr {p : α → Bool} {f : α → List β}
    (h : ∀ x, p x = false → f x = []) (l : List α) :
    (l.filter p).flatMap f = l.flatMap f := by
  induction l with
  | nil => rfl
  | cons x xs ih =>
    by_cases hx : p x = true
    · simp [List.filter_cons, hx, List.flatMap_cons, ih]
    · have hx0 : p x = false := by simpa using hx
      simp [List.filter_cons, hx0, List.flatMap_cons, ih, h x hx0]

/-- C7: `fetch_user_bookings` returns one `{class_id, class_name,
booking_date}` row per confirmed reservation matching the user across all
booking documents (waitlist entries are never consulted), and fails with
HTTP 404 instead of an empty success result when there is no such
reservation. -/
theorem fetch_user_bookings_spec (st : Store) (uid : String) :
    fetch_user_bookings st uid =
      if userBookingsSpec st uid = [] then Except.error 404
      else Except.ok (userBookingsSpec st uid) := by
  have hnil : ∀ d : BookingRecord, (d.bookings.any fun r => r.user_id == uid) = false →
      ((d.bookings.filter (fun r => r.user_id == uid)).map
        (fun r => ({class_id := d.class_id, class_name := r.class_name,
                    booking_date := r.booking_date} : UserBookingView))) = [] := by
    intro d hd
    have hf : d.bookings.filter (fun r => r.user_id == uid) = [] := by
      rw [List.filter_eq_nil_iff]
      intro r hr
      intro hcon
      have hany : (d.bookings.any fun r => r.user_id == uid) = true :=
        List.any_eq_true.mpr ⟨r, hr, hcon⟩
      rw [hd] at hany
      exact Bool.false_ne_true hany
    rw [hf]
    rfl
  have hflat := flatMap_filter_congr
    (p := fun d : BookingRecord => d.bookings.any fun r => r.user_id == uid)
    (f := fun d : BookingRecord =>
      (d.bookings.filter (fun r => r.user_id == uid)).map
        (fun r => ({class_id := d.class_id, class_name := r.class_name,
                    booking_date := r.booking_date} : UserBookingView)))
    hnil st.bookingDocs
  unfold fetch_user_bookings
  dsimp only
  rw [hflat]
  have hspec : (st.bookingDocs.flatMap fun d =>
      (d.bookings.filter (fun r => r.user_id == uid)).map
        (fun r => ({class_id := d.class_id, class_name := r.class_name,
                    booking_date := r.booking_date} : UserBookingView)))
      = userBookingsSpec st uid := rfl
  rw [hspec]
  rcases hE : userBookingsSpec st uid with _ | ⟨a, l⟩
  · simp [List.isEmpty]
  · simp [List.isEmpty]

/-! ## Claim C6: FetchRoadmap error surface -/

/-- C6 (code bug): with no stored roadmap matching (email, project_title),
the handler body raises 404 as the spec says, but the deployed
`fetch_roadmap` endpoint surfaces HTTP 500, because the 404 HTTPException
is raised inside `try:` and `except Exception` catches HTTPException
(a subclass of Exception) and re-raises it with status 500; a matching
stored roadmap is returned as its `{nodes, edges}`. -/
theorem fetch_roadmap_miss_is_500 :
    fetch_roadmap_inner ([] : List (UserRoadmaps Nat)) "a@b.c" "proj" = Except.error 404 ∧
    fetch_roadmap ([] : List (UserRoadmaps Nat)) "a@b.c" "proj" = Except.error 500 ∧
    fetch_roadmap [⟨"a@b.c", [⟨"proj", [1], [2]⟩]⟩] "a@b.c" "proj" = Except.ok ([1], [2]) := by
  refine ⟨rfl, rfl, rfl⟩

/-! ## Claim C8: SaveRoadmap upsert -/

theorem any_updateFirst {p q : α → Bool} {f : α → α} (l : List α)
    (hqf : ∀ x, q (f x) = q x) : (updateFirst p f l).any q = l.any q := by
  induction l with
  | nil => rfl
  | cons x xs ih =>
    by_cases hx : p x = true
    · simp only [updateFirst, if_pos hx, List.any_cons, hqf x]
    · simp only [updateFirst, if_neg hx, List.any_cons, ih]

theorem updateFirst_append_of_none {p : α → Bool} {f : α → α} {l₁ : List α} (l₂ : List α)
    (h : l₁.find? p = none) : updateFirst p f (l₁ ++ l₂) = l₁ ++ updateFirst p f l₂ := by
  induction l₁ with
  | nil => rfl
  | cons x xs ih =>
    by_cases hx : p x = true
    · rw [List.find?_cons_of_pos _ hx] at h
      exact absurd h (by simp)
    · rw [List.find?_cons_of_neg _ hx] at h
      simp only [List.cons_append, updateFirst, if_neg hx, List.append_eq, ih h]


theorem updateFirst_congrFun {p : α → Bool} {f g : α → α} (l : List α)
    (h : ∀ x, f x = g x) : updateFirst p f l = updateFirst p g l := by
  have hfg : f = g := funext h
  rw [hfg]

theorem upsertRoadmap_twice {α : Type} (rs : List (Roadmap α)) (title : String)
    (n1 e1 n2 e2 : List α) :
    upsertRoadmap (upsertRoadmap rs title n1 e1) title n2 e2
      = upsertRoadmap rs title n2 e2 := by
  by_cases hany : (rs.any fun r => r.title == title) = true
  · have hL1 : upsertRoadmap rs title n1 e1
        = updateFirst (fun r => r.title == title)
            (fun r => {r with nodes := n1, edges := e1}) rs := by
      unfold upsertRoadmap
      rw [if_pos hany]
    have hR : upsertRoadmap rs title n2 e2
        = updateFirst (fun r => r.title == title)
            (fun r => {r with nodes := n2, edges := e2}) rs := by
      unfold upsertRoadmap
      rw [if_pos hany]
    have hany1 : ((updateFirst (fun r : Roadmap α => r.title == title)
        (fun r => {r with nodes := n1, edges := e1}) rs).any
          (fun r => r.title == title)) = true := by
      rw [any_updateFirst (q := fun r : Roadmap α => r.title == title)
        (f := fun r : Roadmap α => {r with nodes := n1, edges := e1}) rs (fun x => rfl)]
      exact hany
    have hL2 : upsertRoadmap (updateFirst (fun r : Roadmap α => r.title == title)
          (fun r => {r with nodes := n1, edges := e1}) rs) title n2 e2
        = updateFirst (fun r => r.title == title)
            (fun r => {r with nodes := n2, edges := e2})
            (updateFirst (fun r => r.title == title)
              (fun r => {r with nodes := n1, edges := e1}) rs) := by
      unfold upsertRoadmap
      rw [if_pos hany1]
    rw [hL1, hL2, hR]
    rw [updateFirst_updateFirst (p := fun r : Roadmap α => r.title == title)
      (fun r => {r with nodes := n1, edges := e1})
      (fun r => {r with nodes := n2, edges := e2}) rs (fun x hx => hx)]
  · have hnone : rs.find? (fun r => r.title == title) = none := by
      rw [List.find?_eq_none]
      intro x hx hc
      exact hany (List.any_eq_true.mpr ⟨x, hx, hc⟩)
    have hL1 : upsertRoadmap rs title n1 e1
        = rs ++ [({title := title, nodes := n1, edges := e1} : Roadmap α)] := by
      unfold upsertRoadmap
      rw [if_neg hany]
    have hR : upsertRoadmap rs title n2 e2
        = rs ++ [({title := title, nodes := n2, edges := e2} : Roadmap α)] := by
      unfold upsertRoadmap
      rw [if_neg hany]
    have hany2 : ((rs ++ [({title := title, nodes := n1, edges := e1} : Roadmap α)]).any
        fun r => r.title == title) = true := by
      rw [List.any_append]
      simp
    have hL2 : upsertRoadmap (rs ++ [({title := title, nodes := n1, edges := e1} : Roadmap α)])
          title n2 e2
        = updateFirst (fun r => r.title == title)
            (fun r => {r with nodes := n2, edges := e2})
            (rs ++ [({title := title, nodes := n1, edges := e1} : Roadmap α)]) := by
      unfold upsertRoadmap
      rw [if_pos hany2]
    rw [hL1, hL2, hR, updateFirst_append_of_none _ hnone]
    have hsing : updateFirst (fun r : Roadmap α => r.title == title)
        (fun r => {r with nodes := n2, edges := e2})
        [({title := title, nodes := n1, edges := e1} : Roadmap α)]
        = [({title := title, nodes := n2, edges := e2} : Roadmap α)] := by
      simp [updateFirst]
    rw [hsing]

/-- C8: calling `save_roadmap` twice with the same (email, title) but
different payloads leaves exactly the state a single save of the second
payload would produce (overwrite, not duplicate); and when the user's
document held at most one roadmap with that title, the user ends with
exactly one roadmap titled `title`, holding the second nodes/edges. -/
theorem save_roadmap_twice_overwrites {α : Type} (col : List (UserRoadmaps α))
    (email title : String) (n1 e1 n2 e2 : List α)
    (hcount : countTitled (roadmapsOf col email) title ≤ 1) :
    save_roadmap (save_roadmap col email title n1 e1) email title n2 e2
      = save_roadmap col email title n2 e2 ∧
    (roadmapsOf (save_roadmap (save_roadmap col email title n1 e1) email title n2 e2)
        email).filter (fun r => r.title == title)
      = [{title := title, nodes := n2, edges := e2}] := by
  have main : save_roadmap (save_roadmap col email title n1 e1) email title n2 e2
      = save_roadmap col email title n2 e2 := by
    cases hfe : col.find? (fun u => u.email == email) with
    | some u =>
      have hS1 : save_roadmap col email title n1 e1
          = updateFirst (fun u => u.email == email)
              (fun u => {u with roadmaps := upsertRoadmap u.roadmaps title n1 e1}) col := by
        unfold save_roadmap
        rw [hfe]
        simp only [Option.isSome_some, if_true]
      have hSR : save_roadmap col email title n2 e2
          = updateFirst (fun u => u.email == email)
              (fun u => {u with roadmaps := upsertRoadmap u.roadmaps title n2 e2}) col := by
        unfold save_roadmap
        rw [hfe]
        simp only [Option.isSome_some, if_true]
      have hfe2 := find?_updateFirst_pos
        (f := fun u : UserRoadmaps α =>
          {u with roadmaps := upsertRoadmap u.roadmaps title n1 e1}) hfe
        (by simpa using List.find?_some hfe)
      have hS2 : save_roadmap (updateFirst (fun u : UserRoadmaps α => u.email == email)
            (fun u => {u with roadmaps := upsertRoadmap u.roadmaps title n1 e1}) col)
            email title n2 e2
          = updateFirst (fun u => u.email == email)
              (fun u => {u with roadmaps := upsertRoadmap u.roadmaps title n2 e2})
              (updateFirst (fun u => u.email == email)
                (fun u => {u with roadmaps := upsertRoadmap u.roadmaps title n1 e1}) col) := by
        unfold save_roadmap
        rw [hfe2]
        simp only [Option.isSome_some, if_true]
      rw [hS1, hS2, hSR]
      rw [updateFirst_updateFirst (p := fun u : UserRoadmaps α => u.email == email)
        (fun u => {u with roadmaps := upsertRoadmap u.roadmaps title n1 e1})
        (fun u => {u with roadmaps := upsertRoadmap u.roadmaps title n2 e2}) col
        (fun x hx => hx)]
      exact updateFirst_congrFun col (fun x => by
        cases x with
        | mk em rr => simp [upsertRoadmap_twice])
    | none =>
      have hS1 : save_roadmap col email title n1 e1
          = col ++ [(⟨email, [⟨title, n1, e1⟩]⟩ : UserRoadmaps α)] := by
        unfold save_roadmap
        rw [hfe]
        simp only [Option.isSome_none, Bool.false_eq_true, if_false]
      have hSR : save_roadmap col email title n2 e2
          = col ++ [(⟨email, [⟨title, n2, e2⟩]⟩ : UserRoadmaps α)] := by
        unfold save_roadmap
        rw [hfe]
        simp only [Option.isSome_none, Bool.false_eq_true, if_false]
      have hfe2 : ((col ++ [(⟨email, [⟨title, n1, e1⟩]⟩ : UserRoadmaps α)]).find?
            (fun u => u.email == email))
          = some (⟨email, [⟨title, n1, e1⟩]⟩ : UserRoadmaps α) := by
        rw [find?_append_none _ hfe]
        simp
      have hS2 : save_roadmap (col ++ [(⟨email, [⟨title, n1, e1⟩]⟩ : UserRoadmaps α)])
            email title n2 e2
          = updateFirst (fun u => u.email == email)
              (fun u => {u with roadmaps := upsertRoadmap u.roadmaps title n2 e2})
              (col ++ [(⟨email, [⟨title, n1, e1⟩]⟩ : UserRoadmaps α)]) := by
        unfold save_roadmap
        rw [hfe2]
        simp only [Option.isSome_some, if_true]
      rw [hS1, hS2, hSR, updateFirst_append_of_none _ hfe]
      have hsing : updateFirst (fun u : UserRoadmaps α => u.email == email)
          (fun u => {u with roadmaps := upsertRoadmap u.roadmaps title n2 e2})
          [(⟨email, [⟨title, n1, e1⟩]⟩ : UserRoadmaps α)]
          = [(⟨email, [⟨title, n2, e2⟩]⟩ : UserRoadmaps α)] := by
        simp [updateFirst, upsertRoadmap]
      rw [hsing]
  refine ⟨main, ?_⟩
  rw [main]
  cases hfe : col.find? (fun u => u.email == email) with
  | none =>
    have hSR : save_roadmap col email title n2 e2
        = col ++ [(⟨email, [⟨title, n2, e2⟩]⟩ : UserRoadmaps α)] := by
      unfold save_roadmap
      rw [hfe]
      simp only [Option.isSome_none, Bool.false_eq_true, if_false]
    have hfe2 : ((col ++ [(⟨email, [⟨title, n2, e2⟩]⟩ : UserRoadmaps α)]).find?
          (fun u => u.email == email))
        = some (⟨email, [⟨title, n2, e2⟩]⟩ : UserRoadmaps α) := by
      rw [find?_append_none _ hfe]
      simp
    rw [hSR]
    unfold roadmapsOf
    rw [hfe2]
    simp
  | some u =>
    have hrs : roadmapsOf col email = u.roadmaps := by
      unfold roadmapsOf
      rw [hfe]
      rfl
    rw [hrs] at hcount
    have hSR : save_roadmap col email title n2 e2
        = updateFirst (fun u => u.email == email)
            (fun u => {u with roadmaps := upsertRoadmap u.roadmaps title n2 e2}) col := by
      unfold save_roadmap
      rw [hfe]
      simp only [Option.isSome_some, if_true]
    rw [hSR]
    unfold roadmapsOf
    rw [find?_updateFirst_pos (f := fun u : UserRoadmaps α =>
      {u with roadmaps := upsertRoadmap u.roadmaps title n2 e2}) hfe
      (by simpa using List.find?_some hfe)]
    simp only [Option.map_some', Option.getD_some]
    by_cases hany : (u.roadmaps.any fun r => r.title == title) = true
    · obtain ⟨y, hy⟩ : ∃ y, u.roadmaps.find? (fun r => r.title == title) = some y := by
        cases hf : u.roadmaps.find? (fun r => r.title == title) with
        | some y => exact ⟨y, rfl⟩
        | none =>
          obtain ⟨x, hx, hpx⟩ := List.any_eq_true.mp hany
          exact absurd hpx (by simpa using List.find?_eq_none.mp hf x hx)
      obtain ⟨l₁, l₂, hdec, hl₁, hpy, hupd⟩ := updateFirst_decomp
        (f := fun r : Roadmap α => {r with nodes := n2, edges := e2}) hy
      have hup : upsertRoadmap u.roadmaps title n2 e2
          = l₁ ++ ({y with nodes := n2, edges := e2} : Roadmap α) :: l₂ := by
        unfold upsertRoadmap
        rw [if_pos hany]
        exact hupd
      rw [hup, List.filter_append]
      have hfl₁ : l₁.filter (fun r => r.title == title) = [] := by
        rw [List.filter_eq_nil_iff]
        intro a ha
        simp [hl₁ a ha]
      have hfl₂ : l₂.filter (fun r => r.title == title) = [] := by
        have hc : countTitled u.roadmaps title
            = (l₁.filter (fun r => r.title == title)).length + 1 +
              (l₂.filter (fun r => r.title == title)).length := by
          unfold countTitled
          rw [hdec, List.filter_append, List.filter_cons, if_pos hpy]
          simp [List.length_append]
          omega
        rw [hc, hfl₁] at hcount
        simp at hcount
        rw [List.filter_eq_nil_iff]
        intro a ha hcon
        exact hcount a ha (by simpa using hcon)
      have hytitle : y.title = title := by simpa using hpy
      rw [hfl₁, List.filter_cons]
      have hpy2 : ((({y with nodes := n2, edges := e2}) : Roadmap α).title == title)
          = true := hpy
      rw [if_pos hpy2, hfl₂]
      simp [hytitle]
    · have hup : upsertRoadmap u.roadmaps title n2 e2
          = u.roadmaps ++ [({title := title, nodes := n2, edges := e2} : Roadmap α)] := by
        unfold upsertRoadmap
        rw [if_neg hany]
      rw [hup, List.filter_append]
      have hfl : u.roadmaps.filter (fun r => r.title == title) = [] := by
        rw [List.filter_eq_nil_iff]
        intro a ha hc
        exact hany (List.any_eq_true.mpr ⟨a, ha, hc⟩)
      rw [hfl]
      simp

/-- Witness for C8 at a concrete collection. -/
theorem save_roadmap_twice_overwrites_witness :
    save_roadmap (save_roadmap ([] : List (UserRoadmaps Nat)) "a@b.c" "p" [1] [2])
        "a@b.c" "p" [3] [4]
      = save_roadmap ([] : List (UserRoadmaps Nat)) "a@b.c" "p" [3] [4] ∧
    (roadmapsOf (save_roadmap (save_roadmap ([] : List (UserRoadmaps Nat)) "a@b.c" "p" [1] [2])
        "a@b.c" "p" [3] [4]) "a@b.c").filter (fun r => r.title == "p")
      = [{title := "p", nodes := [3], edges := [4]}] :=
  save_roadmap_twice_overwrites [] "a@b.c" "p" [1] [2] [3] [4] (by decide)

/-! ## Helper characterizations of `cancel_booking` -/

theorem cancel_booking_nomatch {st : Store} {cid uid : String} {d : BookingRecord}
    (hd : st.bookingDocs.find? (fun x => x.class_id == cid) = some d)
    (hm : (d.bookings.all fun r => !(r.user_id == uid)) = true) :
    cancel_booking st cid uid = (st, CancelResult.bookingNotFound) := by
  unfold cancel_booking
  rw [hd]
  dsimp only
  rw [if_pos hm]

theorem length_filter_lt_of_all_false {l : List Reservation} {uid : String}
    (hm : (l.all fun r => !(r.user_id == uid)) = false) :
    (l.filter fun r => !(r.user_id == uid)).length < l.length := by
  rw [List.length_filter_lt_length_iff_exists]
  have hnot : ¬ (l.all fun r => !(r.user_id == uid)) = true := by simp [hm]
  rw [List.all_eq_true] at hnot
  push_neg at hnot
  exact hnot

theorem cancel_booking_run_nowait {st : Store} {cid uid : String} {d : BookingRecord}
    {c : ClassRecord}
    (hd : st.bookingDocs.find? (fun x => x.class_id == cid) = some d)
    (hm : (d.bookings.all fun r => !(r.user_id == uid)) = false)
    (hc : st.classes.find? (fun x => x.class_id == cid) = some c)
    (hw : d.waitlist = []) :
    cancel_booking st cid uid =
      ({classes := updateFirst (fun x => x.class_id == cid)
          (fun x => {x with bookings := x.bookings - ((d.bookings.length : Int)
            - ((d.bookings.filter fun r => !(r.user_id == uid)).length : Int))}) st.classes,
        bookingDocs := updateFirst (fun x => x.class_id == cid)
          (fun x => {x with bookings := x.bookings.filter fun r => !(r.user_id == uid)})
          st.bookingDocs}, CancelResult.canceled) := by
  have hpd := List.find?_some hd
  have hlt := length_filter_lt_of_all_false hm
  unfold cancel_booking
  rw [hd]
  dsimp only
  rw [if_neg (by simp [hm])]
  have hbl : bookingsList ⟨st.classes, updateFirst (fun x => x.class_id == cid)
      (fun x => {x with bookings := x.bookings.filter fun r => !(r.user_id == uid)})
      st.bookingDocs⟩ cid = d.bookings.filter fun r => !(r.user_id == uid) := by
    unfold bookingsList findDoc
    rw [find?_updateFirst_pos hd (by simpa using hpd)]
    rfl
  rw [hbl]
  have hne : (((d.bookings.length : Int)
      - ((d.bookings.filter fun r => !(r.user_id == uid)).length : Int)) == 0) = false := by
    rw [beq_eq_false_iff_ne]
    omega
  rw [hc, hne]
  rw [if_neg (by simp)]
  rw [hw]

theorem cancel_booking_run_wait {st : Store} {cid uid : String} {d : BookingRecord}
    {c : ClassRecord} {w : Reservation} {ws : List Reservation}
    (hd : st.bookingDocs.find? (fun x => x.class_id == cid) = some d)
    (hm : (d.bookings.all fun r => !(r.user_id == uid)) = false)
    (hc : st.classes.find? (fun x => x.class_id == cid) = some c)
    (hw : d.waitlist = w :: ws) :
    cancel_booking st cid uid =
      ({classes := updateFirst (fun x => x.class_id == cid)
          (fun x => {x with
            waitlist := x.waitlist - 1,
            bookings := x.bookings - ((d.bookings.length : Int)
              - ((d.bookings.filter fun r => !(r.user_id == uid)).length : Int)) + 1})
          st.classes,
        bookingDocs := updateFirst (fun x => x.class_id == cid)
          (fun x => {x with
            bookings := (x.bookings.filter fun r => !(r.user_id == uid)) ++ [w],
            waitlist := x.waitlist.filter fun r => !(r == w)}) st.bookingDocs},
       CancelResult.canceledWaitlistUpdated) := by
  have hpd := List.find?_some hd
  have hpc := List.find?_some hc
  have hlt := length_filter_lt_of_all_false hm
  unfold cancel_booking
  rw [hd]
  dsimp only
  rw [if_neg (by simp [hm])]
  have hbl : bookingsList ⟨st.classes, updateFirst (fun x => x.class_id == cid)
      (fun x => {x with bookings := x.bookings.filter fun r => !(r.user_id == uid)})
      st.bookingDocs⟩ cid = d.bookings.filter fun r => !(r.user_id == uid) := by
    unfold bookingsList findDoc
    rw [find?_updateFirst_pos hd (by simpa using hpd)]
    rfl
  rw [hbl]
  have hne : (((d.bookings.length : Int)
      - ((d.bookings.filter fun r => !(r.user_id == uid)).length : Int)) == 0) = false := by
    rw [beq_eq_false_iff_ne]
    omega
  rw [hc, hne]
  rw [if_neg (by simp)]
  rw [hw]
  dsimp only
  rw [updateFirst_updateFirst (p := fun x : BookingRecord => x.class_id == cid)
    (fun x => {x with bookings := x.bookings.filter fun r => !(r.user_id == uid)})
    (fun x => {x with bookings := x.bookings ++ [w],
                      waitlist := x.waitlist.filter fun r => !(r == w)})
    st.bookingDocs (fun x hx => hx)]
  rw [updateFirst_updateFirst (p := fun x : ClassRecord => x.class_id == cid)
    (fun x => {x with bookings := x.bookings - ((d.bookings.length : Int)
      - ((d.bookings.filter fun r => !(r.user_id == uid)).length : Int))})
    (fun x => {x with waitlist := x.waitlist - 1, bookings := x.bookings + 1})
    st.classes (fun x hx => hx)]

/-! ## Claim C4: CancelBooking removes all matching confirmed reservations -/

/-- C4: with the class's booking document present, `cancel_booking` removes
every confirmed reservation whose user_id matches (all of them, not just
one) and decrements the class's bookings counter by exactly the number of
entries removed (`C_before - C_after`); when no entry matches it fails with
BookingNotFound and leaves the state unchanged.  The final bookings array
additionally receives the promoted waitlist head (`d.waitlist.take 1`) when
the waitlist is non-empty, with the corresponding counter adjustments. -/
theorem cancel_booking_removes_all_matching {st : Store} {cid uid : String}
    {d : BookingRecord} {c : ClassRecord}
    (hd : findDoc st cid = some d)
    (hc : findClass st cid = some c) :
    ((d.bookings.all fun r => !(r.user_id == uid)) = true →
      cancel_booking st cid uid = (st, CancelResult.bookingNotFound)) ∧
    ((d.bookings.all fun r => !(r.user_id == uid)) = false →
      bookingsList (cancel_booking st cid uid).1 cid
        = (d.bookings.filter fun r => !(r.user_id == uid)) ++ d.waitlist.take 1 ∧
      ∃ c2, findClass (cancel_booking st cid uid).1 cid = some c2 ∧
        c2.bookings = c.bookings - ((d.bookings.length : Int)
          - ((d.bookings.filter fun r => !(r.user_id == uid)).length : Int))
          + ((d.waitlist.take 1).length : Int) ∧
        c2.waitlist = c.waitlist - ((d.waitlist.take 1).length : Int)) := by
  unfold findDoc at hd
  unfold findClass at hc
  have hpd := List.find?_some hd
  have hpc := List.find?_some hc
  constructor
  · intro hm
    exact cancel_booking_nomatch hd hm
  · intro hm
    cases hwl : d.waitlist with
    | nil =>
      rw [cancel_booking_run_nowait hd hm hc hwl]
      refine ⟨?_, ?_⟩
      · unfold bookingsList findDoc
        rw [find?_updateFirst_pos hd (by simpa using hpd)]
        simp
      · refine ⟨({c with
                    bookings := c.bookings - ((d.bookings.length : Int)
                      - ((d.bookings.filter fun r => !(r.user_id == uid)).length : Int))} :
                  ClassRecord),
          ?_, by simp, by simp⟩
        unfold findClass
        exact find?_updateFirst_pos hc (by simpa using hpc)
    | cons w ws =>
      rw [cancel_booking_run_wait hd hm hc hwl]
      refine ⟨?_, ?_⟩
      · unfold bookingsList findDoc
        rw [find?_updateFirst_pos hd (by simpa using hpd)]
        simp
      · refine ⟨({c with
                    waitlist := c.waitlist - 1,
                    bookings := c.bookings - ((d.bookings.length : Int)
                      - ((d.bookings.filter fun r => !(r.user_id == uid)).length : Int)) + 1} :
                  ClassRecord),
          ?_, by simp, by simp⟩
        unfold findClass
        exact find?_updateFirst_pos hc (by simpa using hpc)

/-- Witness for C4: a class with two confirmed seats of the same user plus
one of another user; canceling removes both entries and decrements by 2,
and canceling an absent user fails with BookingNotFound. -/
theorem cancel_booking_removes_all_matching_witness :
    cancel_booking ⟨[sampleClass "c1" 5 3 0],
        [⟨"c1", [sampleRes "c1" "u1", sampleRes "c1" "u2", sampleRes "c1" "u1"], []⟩]⟩
        "c1" "u3"
      = (⟨[sampleClass "c1" 5 3 0],
          [⟨"c1", [sampleRes "c1" "u1", sampleRes "c1" "u2", sampleRes "c1" "u1"], []⟩]⟩,
         CancelResult.bookingNotFound) ∧
    bookingsList (cancel_booking ⟨[sampleClass "c1" 5 3 0],
        [⟨"c1", [sampleRes "c1" "u1", sampleRes "c1" "u2", sampleRes "c1" "u1"], []⟩]⟩
        "c1" "u1").1 "c1" = [sampleRes "c1" "u2"] ∧
    ∃ c2, findClass (cancel_booking ⟨[sampleClass "c1" 5 3 0],
        [⟨"c1", [sampleRes "c1" "u1", sampleRes "c1" "u2", sampleRes "c1" "u1"], []⟩]⟩
        "c1" "u1").1 "c1" = some c2 ∧ c2.bookings = 1 ∧ c2.waitlist = 0 := by
  have h1 := @cancel_booking_removes_all_matching
    ⟨[sampleClass "c1" 5 3 0],
      [⟨"c1", [sampleRes "c1" "u1", sampleRes "c1" "u2", sampleRes "c1" "u1"], []⟩]⟩
    "c1" "u3"
    ⟨"c1", [sampleRes "c1" "u1", sampleRes "c1" "u2", sampleRes "c1" "u1"], []⟩
    (sampleClass "c1" 5 3 0) (by decide) (by decide)
  have h2 := @cancel_booking_removes_all_matching
    ⟨[sampleClass "c1" 5 3 0],
      [⟨"c1", [sampleRes "c1" "u1", sampleRes "c1" "u2", sampleRes "c1" "u1"], []⟩]⟩
    "c1" "u1"
    ⟨"c1", [sampleRes "c1" "u1", sampleRes "c1" "u2", sampleRes "c1" "u1"], []⟩
    (sampleClass "c1" 5 3 0) (by decide) (by decide)
  refine ⟨h1.1 (by decide), ?_, ?_⟩
  · exact ((h2.2 (by decide)).1).trans (by decide)
  · obtain ⟨c2, hfc, hb, hw⟩ := (h2.2 (by decide)).2
    exact ⟨c2, hfc, by rw [hb]; decide, by rw [hw]; decide⟩

/-! ## Claim C3: waitlist promotion on cancellation -/

/-- C3 counterexample: with the duplicated entry `sampleRes "c1" "u2"`
occurring twice in the waitlist, canceling the last confirmed seat promotes
the head but Mongo's `$pull` removes BOTH copies, so the other waitlist
entry does not remain: the final waitlist is `[]`, not the tail
`[sampleRes "c1" "u2"]`, while the waitlist counter only drops by 1. -/
theorem cancel_booking_promotes_head_counterexample :
    (cancel_booking ⟨[sampleClass "c1" 1 1 2],
        [⟨"c1", [sampleRes "c1" "u1"],
          [sampleRes "c1" "u2", sampleRes "c1" "u2"]⟩]⟩ "c1" "u1").2
      = CancelResult.canceledWaitlistUpdated ∧
    waitlistList ⟨[sampleClass "c1" 1 1 2],
        [⟨"c1", [sampleRes "c1" "u1"],
          [sampleRes "c1" "u2", sampleRes "c1" "u2"]⟩]⟩ "c1"
      = [sampleRes "c1" "u2", sampleRes "c1" "u2"] ∧
    waitlistList (cancel_booking ⟨[sampleClass "c1" 1 1 2],
        [⟨"c1", [sampleRes "c1" "u1"],
          [sampleRes "c1" "u2", sampleRes "c1" "u2"]⟩]⟩ "c1" "u1").1 "c1" = [] ∧
    waitlistList (cancel_booking ⟨[sampleClass "c1" 1 1 2],
        [⟨"c1", [sampleRes "c1" "u1"],
          [sampleRes "c1" "u2", sampleRes "c1" "u2"]⟩]⟩ "c1" "u1").1 "c1"
      ≠ [sampleRes "c1" "u2"] ∧
    findClass (cancel_booking ⟨[sampleClass "c1" 1 1 2],
        [⟨"c1", [sampleRes "c1" "u1"],
          [sampleRes "c1" "u2", sampleRes "c1" "u2"]⟩]⟩ "c1" "u1").1 "c1"
      = some (sampleClass "c1" 1 1 1) := by
  refine ⟨by decide, by decide, by decide, by decide, by decide⟩

/-- C3 (amended): when a CancelBooking removes at least one confirmed
reservation, the waitlist is non-empty, and its head entry occurs only once
in the waitlist, exactly the head is removed from the waitlist and appended
to the bookings array, the waitlist counter drops by exactly 1, the
bookings counter gains 1 (on top of the cancellation decrement), the call
returns PromotedFromWaitlist, and all other waitlist entries remain in
place and in order.  (Unrestricted, a duplicate of the head is removed as
well: see the counterexample.) -/
theorem cancel_booking_promotes_head {st : Store} {cid uid : String}
    {d : BookingRecord} {c : ClassRecord} {w : Reservation} {ws : List Reservation}
    (hd : findDoc st cid = some d)
    (hm : (d.bookings.all fun r => !(r.user_id == uid)) = false)
    (hc : findClass st cid = some c)
    (hw : d.waitlist = w :: ws)
    (hnodup : w ∉ ws) :
    (cancel_booking st cid uid).2 = CancelResult.canceledWaitlistUpdated ∧
    waitlistList (cancel_booking st cid uid).1 cid = ws ∧
    bookingsList (cancel_booking st cid uid).1 cid
      = (d.bookings.filter fun r => !(r.user_id == uid)) ++ [w] ∧
    ∃ c2, findClass (cancel_booking st cid uid).1 cid = some c2 ∧
      c2.waitlist = c.waitlist - 1 ∧
      c2.bookings = c.bookings - ((d.bookings.length : Int)
        - ((d.bookings.filter fun r => !(r.user_id == uid)).length : Int)) + 1 := by
  unfold findDoc at hd
  unfold findClass at hc
  have hpd := List.find?_some hd
  have hpc := List.find?_some hc
  rw [cancel_booking_run_wait hd hm hc hw]
  refine ⟨rfl, ?_, ?_, ?_⟩
  · unfold waitlistList findDoc
    rw [find?_updateFirst_pos hd (by simpa using hpd)]
    simp only [Option.map_some', Option.getD_some]
    rw [hw, List.filter_cons]
    simp only [beq_self_eq_true, Bool.not_true, Bool.false_eq_true, if_false]
    rw [List.filter_eq_self]
    intro a ha
    simp only [Bool.not_eq_true']
    rw [beq_eq_false_iff_ne]
    intro hEq
    exact hnodup (hEq ▸ ha)
  · unfold bookingsList findDoc
    rw [find?_updateFirst_pos hd (by simpa using hpd)]
    rfl
  · refine ⟨({c with
                waitlist := c.waitlist - 1,
                bookings := c.bookings - ((d.bookings.length : Int)
                  - ((d.bookings.filter fun r => !(r.user_id == uid)).length : Int)) + 1} :
              ClassRecord),
      ?_, rfl, rfl⟩
    unfold findClass
    exact find?_updateFirst_pos hc (by simpa using hpc)

/-- Witness for the amended C3 at a concrete store. -/
theorem cancel_booking_promotes_head_witness :
    (cancel_booking ⟨[sampleClass "c1" 1 1 1],
        [⟨"c1", [sampleRes "c1" "u1"], [sampleRes "c1" "u2"]⟩]⟩ "c1" "u1").2
      = CancelResult.canceledWaitlistUpdated ∧
    waitlistList (cancel_booking ⟨[sampleClass "c1" 1 1 1],
        [⟨"c1", [sampleRes "c1" "u1"], [sampleRes "c1" "u2"]⟩]⟩ "c1" "u1").1 "c1" = [] ∧
    bookingsList (cancel_booking ⟨[sampleClass "c1" 1 1 1],
        [⟨"c1", [sampleRes "c1" "u1"], [sampleRes "c1" "u2"]⟩]⟩ "c1" "u1").1 "c1"
      = [sampleRes "c1" "u2"] := by
  have h := @cancel_booking_promotes_head
    ⟨[sampleClass "c1" 1 1 1], [⟨"c1", [sampleRes "c1" "u1"], [sampleRes "c1" "u2"]⟩]⟩
    "c1" "u1"
    ⟨"c1", [sampleRes "c1" "u1"], [sampleRes "c1" "u2"]⟩
    (sampleClass "c1" 1 1 1) (sampleRes "c1" "u2") []
    (by decide) (by decide) (by decide) (by decide) (by decide)
  exact ⟨h.1, h.2.1, h.2.2.1.trans (by decide)⟩

/-! ## Claim C9: cancellation never strips the user's waitlist entries -/

/-- C9: when `cancel_booking` removes confirmed reservations, the effect on
the waitlist does not depend on whose reservations were removed: nothing is
filtered from the waitlist by user_id.  The waitlist either stays whole
(empty-waitlist case) or loses exactly the entries equal to its head, the
head being appended to the bookings array; hence every waitlist entry of
the canceling user survives in the waitlist or (as the promoted head) in
the bookings array, and when the user's own entry is at the head it is the
one promoted into the seat they just freed. -/
theorem cancel_booking_spares_user_waitlist {st : Store} {cid uid : String}
    {d : BookingRecord} {c : ClassRecord}
    (hd : findDoc st cid = some d)
    (hm : (d.bookings.all fun r => !(r.user_id == uid)) = false)
    (hc : findClass st cid = some c) :
    (d.waitlist = [] → waitlistList (cancel_booking st cid uid).1 cid = []) ∧
    (∀ w ws, d.waitlist = w :: ws →
      waitlistList (cancel_booking st cid uid).1 cid = ws.filter (fun r => !(r == w)) ∧
      w ∈ bookingsList (cancel_booking st cid uid).1 cid) ∧
    (∀ r ∈ d.waitlist, r.user_id = uid →
      r ∈ waitlistList (cancel_booking st cid uid).1 cid ∨
      r ∈ bookingsList (cancel_booking st cid uid).1 cid) := by
  unfold findDoc at hd
  unfold findClass at hc
  have hpd := List.find?_some hd
  have hpc := List.find?_some hc
  cases hwl : d.waitlist with
  | nil =>
    have hWL : waitlistList (cancel_booking st cid uid).1 cid = [] := by
      rw [cancel_booking_run_nowait hd hm hc hwl]
      unfold waitlistList findDoc
      rw [find?_updateFirst_pos hd (by simpa using hpd)]
      simp [hwl]
    refine ⟨fun _ => hWL, ?_, ?_⟩
    · intro w ws hcontra
      exact absurd hcontra (by simp)
    · intro r hr
      exact absurd hr (by simp)
  | cons w0 ws0 =>
    have hWL : waitlistList (cancel_booking st cid uid).1 cid
        = ws0.filter (fun r => !(r == w0)) := by
      rw [cancel_booking_run_wait hd hm hc hwl]
      unfold waitlistList findDoc
      rw [find?_updateFirst_pos hd (by simpa using hpd)]
      simp only [Option.map_some', Option.getD_some]
      rw [hwl, List.filter_cons]
      simp
    have hBL : bookingsList (cancel_booking st cid uid).1 cid
        = (d.bookings.filter fun r => !(r.user_id == uid)) ++ [w0] := by
      rw [cancel_booking_run_wait hd hm hc hwl]
      unfold bookingsList findDoc
      rw [find?_updateFirst_pos hd (by simpa using hpd)]
      rfl
    refine ⟨?_, ?_, ?_⟩
    · intro hcontra
      exact absurd hcontra (by simp)
    · intro w ws hcons
      injection hcons with hw hws
      subst hw
      subst hws
      refine ⟨hWL, ?_⟩
      rw [hBL]
      simp
    · intro r hr _
      rcases List.mem_cons.mp hr with rfl | hr2
      · right
        rw [hBL]
        simp
      · by_cases hEq : r = w0
        · right
          rw [hBL, hEq]
          simp
        · left
          rw [hWL]
          rw [List.mem_filter]
          refine ⟨hr2, ?_⟩
          simp only [Bool.not_eq_true']
          rw [beq_eq_false_iff_ne]
          exact hEq

/-- Witness for C9: the canceling user is confirmed and also waitlisted at
the head; their waitlist entry is promoted into the bookings array. -/
theorem cancel_booking_spares_user_waitlist_witness :
    waitlistList (cancel_booking ⟨[sampleClass "c1" 1 1 2],
        [⟨"c1", [sampleRes "c1" "u1"],
          [{sampleRes "c1" "u1" with user_name := "again"}, sampleRes "c1" "u2"]⟩]⟩
        "c1" "u1").1 "c1" = [sampleRes "c1" "u2"] ∧
    {sampleRes "c1" "u1" with user_name := "again"}
      ∈ bookingsList (cancel_booking ⟨[sampleClass "c1" 1 1 2],
        [⟨"c1", [sampleRes "c1" "u1"],
          [{sampleRes "c1" "u1" with user_name := "again"}, sampleRes "c1" "u2"]⟩]⟩
        "c1" "u1").1 "c1" := by
  have h := @cancel_booking_spares_user_waitlist
    ⟨[sampleClass "c1" 1 1 2],
      [⟨"c1", [sampleRes "c1" "u1"],
        [{sampleRes "c1" "u1" with user_name := "again"}, sampleRes "c1" "u2"]⟩]⟩
    "c1" "u1"
    ⟨"c1", [sampleRes "c1" "u1"],
      [{sampleRes "c1" "u1" with user_name := "again"}, sampleRes "c1" "u2"]⟩
    (sampleClass "c1" 1 1 2) (by decide) (by decide) (by decide)
  obtain ⟨hW, hB⟩ := h.2.1 {sampleRes "c1" "u1" with user_name := "again"}
    [sampleRes "c1" "u2"] (by decide)
  exact ⟨hW.trans (by decide), hB⟩

/-! ## Claim C10: non-atomic failure when the class counter update misses -/

/-- C10: when the booking document exists and the pull removes at least one
confirmed reservation but no ClassRecord with that class_id exists, the
call fails with UpdateFailed (HTTP 500) while the removal from the bookings
array persists, the waitlist is untouched, no promotion occurs, and the
class collection is unchanged — the error is not atomic with respect to the
BookingRecord mutation. -/
theorem cancel_booking_update_failed {st : Store} {cid uid : String} {d : BookingRecord}
    (hd : findDoc st cid = some d)
    (hm : (d.bookings.all fun r => !(r.user_id == uid)) = false)
    (hc : findClass st cid = none) :
    (cancel_booking st cid uid).2 = CancelResult.updateFailed ∧
    bookingsList (cancel_booking st cid uid).1 cid
      = d.bookings.filter (fun r => !(r.user_id == uid)) ∧
    waitlistList (cancel_booking st cid uid).1 cid = d.waitlist ∧
    (cancel_booking st cid uid).1.classes = st.classes := by
  unfold findDoc at hd
  unfold findClass at hc
  have hpd := List.find?_some hd
  have hstep : cancel_booking st cid uid =
      ({classes := st.classes,
        bookingDocs := updateFirst (fun x => x.class_id == cid)
          (fun x => {x with bookings := x.bookings.filter fun r => !(r.user_id == uid)})
          st.bookingDocs}, CancelResult.updateFailed) := by
    unfold cancel_booking
    rw [hd]
    dsimp only
    rw [if_neg (by simp [hm])]
    rw [hc]
    rw [if_pos (by simp)]
    rw [updateFirst_of_find?_none _ hc]
  rw [hstep]
  refine ⟨rfl, ?_, ?_, rfl⟩
  · unfold bookingsList findDoc
    rw [find?_updateFirst_pos hd (by simpa using hpd)]
    rfl
  · unfold waitlistList findDoc
    rw [find?_updateFirst_pos hd (by simpa using hpd)]
    rfl

/-- Witness for C10: booking document for a class_id with no class record. -/
theorem cancel_booking_update_failed_witness :
    (cancel_booking ⟨[], [⟨"c1", [sampleRes "c1" "u1"], [sampleRes "c1" "u2"]⟩]⟩
        "c1" "u1").2 = CancelResult.updateFailed ∧
    bookingsList (cancel_booking ⟨[], [⟨"c1", [sampleRes "c1" "u1"],
        [sampleRes "c1" "u2"]⟩]⟩ "c1" "u1").1 "c1" = [] ∧
    waitlistList (cancel_booking ⟨[], [⟨"c1", [sampleRes "c1" "u1"],
        [sampleRes "c1" "u2"]⟩]⟩ "c1" "u1").1 "c1" = [sampleRes "c1" "u2"] := by
  have h := @cancel_booking_update_failed
    ⟨[], [⟨"c1", [sampleRes "c1" "u1"], [sampleRes "c1" "u2"]⟩]⟩
    "c1" "u1"
    ⟨"c1", [sampleRes "c1" "u1"], [sampleRes "c1" "u2"]⟩
    (by decide) (by decide) (by decide)
  exact ⟨h.1, h.2.1.trans (by decide), h.2.2.1⟩

/-! ## Claim C1: the cross-entity counter invariant -/

/-- C1 counterexample: from the empty store, register a one-slot class,
confirm u1, waitlist the identical reservation of u2 twice, then cancel
u1.  The promotion's `$pull` removes both identical waitlist entries while
decrementing the waitlist counter by only 1: afterwards the counter is 1
but the waitlist array is empty, so the invariant fails after this
operation of the sequence. -/
theorem counters_match_lists_counterexample :
    storeInv (runOps
      [Op.register "c1" "Yoga" "d" "i" "c" 1,
       Op.book (sampleRes "c1" "u1"),
       Op.book (sampleRes "c1" "u2"),
       Op.book (sampleRes "c1" "u2"),
       Op.cancel "c1" "u1"]) = false ∧
    (findClass (runOps
      [Op.register "c1" "Yoga" "d" "i" "c" 1,
       Op.book (sampleRes "c1" "u1"),
       Op.book (sampleRes "c1" "u2"),
       Op.book (sampleRes "c1" "u2"),
       Op.cancel "c1" "u1"]) "c1").map (fun c => c.waitlist) = some 1 ∧
    waitlistList (runOps
      [Op.register "c1" "Yoga" "d" "i" "c" 1,
       Op.book (sampleRes "c1" "u1"),
       Op.book (sampleRes "c1" "u2"),
       Op.book (sampleRes "c1" "u2"),
       Op.cancel "c1" "u1"]) "c1" = [] := by
  refine ⟨by decide, by decide, by decide⟩

theorem EngineInv_empty : EngineInv emptyStore := by
  refine ⟨rfl, List.nodup_nil, ?_, ?_⟩
  · intro d hd
    exact absurd hd (by simp [emptyStore])
  · intro d hd
    exact absurd hd (by simp [emptyStore])

theorem create_class_preserves {st : Store} {data : ClassRecord}
    (hInv : EngineInv st) (hb : data.bookings = 0) (hw : data.waitlist = 0) :
    EngineInv (create_class st data).1 := by
  obtain ⟨hsi, hnd, hdc, hwn⟩ := hInv
  unfold create_class
  by_cases hex : (st.classes.find? fun c => c.class_id == data.class_id).isSome = true
  · rw [if_pos hex]
    exact ⟨hsi, hnd, hdc, hwn⟩
  · rw [if_neg hex]
    have hnone : st.classes.find? (fun c => c.class_id == data.class_id) = none := by
      cases h2 : st.classes.find? (fun c => c.class_id == data.class_id) with
      | none => rfl
      | some cc => exact absurd (by rw [h2]; rfl) hex
    have hfresh : ∀ c ∈ st.classes, (c.class_id == data.class_id) = false :=
      fun c hc => by simpa using List.find?_eq_none.mp hnone c hc
    have hdocnone : st.bookingDocs.find? (fun y => y.class_id == data.class_id) = none := by
      cases hdf : st.bookingDocs.find? (fun y => y.class_id == data.class_id) with
      | none => rfl
      | some dd =>
        have hmem := List.mem_of_find?_eq_some hdf
        have hcid := List.find?_some hdf
        have hcidEq : dd.class_id = data.class_id := by simpa using hcid
        obtain ⟨cc, hccmem, hcc⟩ := List.mem_map.mp (hdc dd hmem)
        have : (cc.class_id == data.class_id) = false := hfresh cc hccmem
        rw [hcc, hcidEq] at this
        simp at this
    refine ⟨?_, ?_, ?_, ?_⟩
    · unfold storeInv at hsi ⊢
      dsimp only
      rw [List.all_append]
      refine (Bool.and_eq_true _ _).mpr ⟨hsi, ?_⟩
      have : classConsistent st.bookingDocs data = true := by
        unfold classConsistent
        rw [hdocnone, hb, hw]
        rfl
      simpa using this
    · dsimp only
      rw [List.map_append, List.nodup_append]
      refine ⟨hnd, by simp, ?_⟩
      intro a ha hb2
      simp only [List.map_cons, List.map_nil, List.mem_cons, List.not_mem_nil,
        or_false] at hb2
      obtain ⟨cc, hccmem, hcc⟩ := List.mem_map.mp ha
      have := hfresh cc hccmem
      rw [hcc, hb2] at this
      simp at this
    · intro dd hdd
      dsimp only at hdd ⊢
      rw [List.map_append]
      exact List.mem_append_left _ (hdc dd hdd)
    · intro dd hdd
      exact hwn dd hdd

theorem classConsistent_updateFirst_other {docs : List BookingRecord} {cid : String}
    {f : BookingRecord → BookingRecord} (hf : ∀ y, (f y).class_id = y.class_id)
    {x : ClassRecord} (hx : (x.class_id == cid) = false) :
    classConsistent (updateFirst (fun y => y.class_id == cid) f docs) x
      = classConsistent docs x := by
  unfold classConsistent
  rw [find?_updateFirst_neg docs ?hpq ?hqf]
  case hpq =>
    intro y hy
    rw [beq_eq_false_iff_ne]
    intro hcon
    have : (x.class_id == cid) = true := by
      rw [← hcon]
      exact hy
    rw [this] at hx
    exact absurd hx (by simp)
  case hqf =>
    intro y
    rw [hf y]

theorem classConsistent_append_other {docs : List BookingRecord} {fresh : BookingRecord}
    {x : ClassRecord} (hx : (fresh.class_id == x.class_id) = false) :
    classConsistent (docs ++ [fresh]) x = classConsistent docs x := by
  unfold classConsistent
  cases hf : docs.find? (fun y => y.class_id == x.class_id) with
  | some d => rw [find?_append_some _ hf]
  | none =>
    rw [find?_append_none _ hf]
    rw [List.find?_cons_of_neg _ (by simp [hx])]
    rfl

theorem mem_updateFirst_of_find? {p : α → Bool} {f : α → α} {l : List α} {y : α}
    (hfind : l.find? p = some y) {x : α} (hx : x ∈ updateFirst p f l) :
    x ∈ l ∨ x = f y := by
  obtain ⟨l₁, l₂, hdec, hl₁, hpy, hupd⟩ := updateFirst_decomp f hfind
  rw [hupd] at hx
  rcases List.mem_append.mp hx with h1 | h2
  · exact Or.inl (hdec ▸ List.mem_append_left _ h1)
  · rcases List.mem_cons.mp h2 with rfl | h3
    · exact Or.inr rfl
    · exact Or.inl (hdec ▸ List.mem_append_right _ (List.mem_cons_of_mem _ h3))

theorem storeInv_update {st : Store} {cid : String}
    {g : ClassRecord → ClassRecord} {f : BookingRecord → BookingRecord}
    {fresh : BookingRecord} {c : ClassRecord}
    (hsi : storeInv st = true)
    (hnd : (st.classes.map (fun c => c.class_id)).Nodup)
    (hfc : st.classes.find? (fun x => x.class_id == cid) = some c)
    (hfid : ∀ x, (f x).class_id = x.class_id)
    (hfreshid : fresh.class_id = cid)
    (hcons : classConsistent (upsertPush cid f fresh st.bookingDocs) (g c) = true) :
    storeInv ⟨updateFirst (fun x => x.class_id == cid) g st.classes,
              upsertPush cid f fresh st.bookingDocs⟩ = true := by
  have hother : ∀ x ∈ st.classes, (x.class_id == cid) = false →
      classConsistent (upsertPush cid f fresh st.bookingDocs) x = true := by
    intro x hx hxne
    have hold : classConsistent st.bookingDocs x = true := by
      have := (List.all_eq_true.mp hsi) x hx
      exact this
    unfold upsertPush
    by_cases hdf : (st.bookingDocs.find? fun d => d.class_id == cid).isSome = true
    · rw [if_pos hdf, classConsistent_updateFirst_other hfid hxne]
      exact hold
    · rw [if_neg hdf, classConsistent_append_other ?hfx]
      · exact hold
      case hfx =>
        rw [hfreshid, beq_eq_false_iff_ne]
        intro hcon
        rw [← hcon] at hxne
        simp at hxne
  obtain ⟨l₁, l₂, hdec, hl₁, hpy, hupd⟩ := updateFirst_decomp g hfc
  unfold storeInv
  dsimp only
  rw [hupd, List.all_eq_true]
  intro x hx
  rcases List.mem_append.mp hx with h1 | h2
  · exact hother x (hdec ▸ List.mem_append_left _ h1) (hl₁ x h1)
  · rcases List.mem_cons.mp h2 with rfl | h3
    · exact hcons
    · refine hother x (hdec ▸ List.mem_append_right _ (List.mem_cons_of_mem _ h3)) ?_
      have hmapdec : st.classes.map (fun c => c.class_id)
          = l₁.map (fun c => c.class_id) ++ c.class_id :: l₂.map (fun c => c.class_id) := by
        rw [hdec]
        simp
      rw [hmapdec] at hnd
      have hnotmem : c.class_id ∉ l₂.map (fun c => c.class_id) :=
        (List.nodup_cons.mp (hnd.of_append_right)).1
      rw [beq_eq_false_iff_ne]
      intro hcon
      have hcidc : c.class_id = cid := by simpa using hpy
      rw [hcidc] at hnotmem
      exact hnotmem (hcon ▸ List.mem_map_of_mem (fun c => c.class_id) h3)

theorem book_slot_preserves {st : Store} {b : Reservation}
    (hInv : EngineInv st) (hsafe : bookSafeB st b = true) :
    EngineInv (book_slot st b).1 := by
  obtain ⟨hsi, hnd, hdc, hwn⟩ := hInv
  cases hfc : st.classes.find? (fun c => c.class_id == b.class_id) with
  | none =>
    unfold book_slot
    rw [hfc]
    exact ⟨hsi, hnd, hdc, hwn⟩
  | some c =>
    have hpc := List.find?_some hfc
    have hcid : c.class_id = b.class_id := by simpa using hpc
    have hcmem := List.mem_of_find?_eq_some hfc
    have hco := (List.all_eq_true.mp hsi) c hcmem
    unfold classConsistent at hco
    rw [hcid] at hco
    by_cases hfull : c.bookings ≥ c.total_slots
    · have hstep : book_slot st b = (⟨updateFirst (fun x => x.class_id == b.class_id)
          (fun x => {x with waitlist := x.waitlist + 1}) st.classes,
          upsertPush b.class_id
            (fun d => {d with waitlist := d.waitlist ++ [{b with class_name := c.class_name}]})
            ⟨b.class_id, [], [{b with class_name := c.class_name}]⟩ st.bookingDocs⟩,
          BookResult.waitlisted) := by
        unfold book_slot
        rw [hfc]
        simp only [ge_iff_le, if_pos hfull]
      rw [hstep]
      dsimp only
      have hsafe2 : ({b with class_name := c.class_name} : Reservation)
          ∉ waitlistList st b.class_id := by
        unfold bookSafeB findClass at hsafe
        rw [hfc] at hsafe
        dsimp only at hsafe
        rw [if_pos hfull] at hsafe
        simpa using hsafe
      refine ⟨?_, ?_, ?_, ?_⟩
      · refine storeInv_update hsi hnd hfc (fun x => rfl) rfl ?_
        by_cases hdf : (st.bookingDocs.find? fun d => d.class_id == b.class_id).isSome = true
        · obtain ⟨d0, hfd⟩ := Option.isSome_iff_exists.mp hdf
          rw [hfd] at hco
          obtain ⟨hb1, hw1⟩ := (Bool.and_eq_true _ _).mp hco
          have hbEq : c.bookings = (d0.bookings.length : Int) := by simpa using hb1
          have hwEq : c.waitlist = (d0.waitlist.length : Int) := by simpa using hw1
          unfold upsertPush
          rw [if_pos hdf]
          unfold classConsistent
          dsimp only
          rw [hcid]
          rw [find?_updateFirst_pos hfd (by simpa using List.find?_some hfd)]
          dsimp only
          rw [Bool.and_eq_true]
          constructor
          · simpa using hbEq
          · have hlen : (((d0.waitlist ++ [{b with class_name := c.class_name}]).length : Nat) : Int)
                = (d0.waitlist.length : Int) + 1 := by
              simp
            rw [hlen, hwEq]
            simp
        · have hnone : st.bookingDocs.find? (fun d => d.class_id == b.class_id) = none := by
            cases h2 : st.bookingDocs.find? (fun d => d.class_id == b.class_id) with
            | none => rfl
            | some dd => exact absurd (by rw [h2]; rfl) hdf
          rw [hnone] at hco
          obtain ⟨hb1, hw1⟩ := (Bool.and_eq_true _ _).mp hco
          have hbEq : c.bookings = 0 := by simpa using hb1
          have hwEq : c.waitlist = 0 := by simpa using hw1
          unfold upsertPush
          rw [if_neg hdf]
          unfold classConsistent
          dsimp only
          rw [hcid]
          rw [find?_append_none _ hnone]
          rw [List.find?_cons_of_pos _ (by simp)]
          dsimp only
          rw [Bool.and_eq_true]
          constructor
          · simp [hbEq]
          · simp [hwEq]
      · dsimp only
        have hmap : (updateFirst (fun x => x.class_id == b.class_id)
            (fun x : ClassRecord => {x with waitlist := x.waitlist + 1})
            st.classes).map (fun c => c.class_id)
            = st.classes.map (fun c => c.class_id) :=
          map_updateFirst _ _ (fun x => rfl)
        rw [hmap]
        exact hnd
      · intro dd hdd
        dsimp only at hdd ⊢
        have hmap : (updateFirst (fun x => x.class_id == b.class_id)
            (fun x : ClassRecord => {x with waitlist := x.waitlist + 1})
            st.classes).map (fun c => c.class_id)
            = st.classes.map (fun c => c.class_id) :=
          map_updateFirst _ _ (fun x => rfl)
        rw [hmap]
        unfold upsertPush at hdd
        by_cases hdf : (st.bookingDocs.find? fun d => d.class_id == b.class_id).isSome = true
        · rw [if_pos hdf] at hdd
          obtain ⟨d0, hfd⟩ := Option.isSome_iff_exists.mp hdf
          rcases mem_updateFirst_of_find? hfd hdd with h | hEq
          · exact hdc dd h
          · rw [hEq]
            exact hdc d0 (List.mem_of_find?_eq_some hfd)
        · rw [if_neg hdf] at hdd
          rcases List.mem_append.mp hdd with h | h
          · exact hdc dd h
          · have : dd = (⟨b.class_id, [], [{b with class_name := c.class_name}]⟩ :
                BookingRecord) := by simpa using h
            rw [this]
            rw [← hcid]
            exact List.mem_map_of_mem (fun c => c.class_id) hcmem
      · intro dd hdd
        dsimp only at hdd
        unfold upsertPush at hdd
        by_cases hdf : (st.bookingDocs.find? fun d => d.class_id == b.class_id).isSome = true
        · rw [if_pos hdf] at hdd
          obtain ⟨d0, hfd⟩ := Option.isSome_iff_exists.mp hdf
          rcases mem_updateFirst_of_find? hfd hdd with h | hEq
          · exact hwn dd h
          · rw [hEq]
            dsimp only
            have hw0 := hwn d0 (List.mem_of_find?_eq_some hfd)
            have hbd : ({b with class_name := c.class_name} : Reservation) ∉ d0.waitlist := by
              intro hmem
              apply hsafe2
              unfold waitlistList findDoc
              rw [hfd]
              simpa using hmem
            rw [List.nodup_append]
            refine ⟨hw0, by simp, ?_⟩
            intro z hz hz2
            simp only [List.mem_singleton] at hz2
            rw [hz2] at hz
            exact hbd hz
        · rw [if_neg hdf] at hdd
          rcases List.mem_append.mp hdd with h | h
          · exact hwn dd h
          · have : dd = (⟨b.class_id, [], [{b with class_name := c.class_name}]⟩ :
                BookingRecord) := by simpa using h
            rw [this]
            simp
    · have hstep : book_slot st b = (⟨updateFirst (fun x => x.class_id == b.class_id)
          (fun x => {x with bookings := x.bookings + 1}) st.classes,
          upsertPush b.class_id
            (fun d => {d with bookings := d.bookings ++ [{b with class_name := c.class_name}]})
            ⟨b.class_id, [{b with class_name := c.class_name}], []⟩ st.bookingDocs⟩,
          BookResult.confirmed) := by
        unfold book_slot
        rw [hfc]
        simp only [ge_iff_le, if_neg hfull]
      rw [hstep]
      dsimp only
      refine ⟨?_, ?_, ?_, ?_⟩
      · refine storeInv_update hsi hnd hfc (fun x => rfl) rfl ?_
        by_cases hdf : (st.bookingDocs.find? fun d => d.class_id == b.class_id).isSome = true
        · obtain ⟨d0, hfd⟩ := Option.isSome_iff_exists.mp hdf
          rw [hfd] at hco
          obtain ⟨hb1, hw1⟩ := (Bool.and_eq_true _ _).mp hco
          have hbEq : c.bookings = (d0.bookings.length : Int) := by simpa using hb1
          have hwEq : c.waitlist = (d0.waitlist.length : Int) := by simpa using hw1
          unfold upsertPush
          rw [if_pos hdf]
          unfold classConsistent
          dsimp only
          rw [hcid]
          rw [find?_updateFirst_pos hfd (by simpa using List.find?_some hfd)]
          dsimp only
          rw [Bool.and_eq_true]
          constructor
          · have hlen : (((d0.bookings ++ [{b with class_name := c.class_name}]).length : Nat) : Int)
                = (d0.bookings.length : Int) + 1 := by
              simp
            rw [hlen, hbEq]
            simp
          · simpa using hwEq
        · have hnone : st.bookingDocs.find? (fun d => d.class_id == b.class_id) = none := by
            cases h2 : st.bookingDocs.find? (fun d => d.class_id == b.class_id) with
            | none => rfl
            | some dd => exact absurd (by rw [h2]; rfl) hdf
          rw [hnone] at hco
          obtain ⟨hb1, hw1⟩ := (Bool.and_eq_true _ _).mp hco
          have hbEq : c.bookings = 0 := by simpa using hb1
          have hwEq : c.waitlist = 0 := by simpa using hw1
          unfold upsertPush
          rw [if_neg hdf]
          unfold classConsistent
          dsimp only
          rw [hcid]
          rw [find?_append_none _ hnone]
          rw [List.find?_cons_of_pos _ (by simp)]
          dsimp only
          rw [Bool.and_eq_true]
          constructor
          · simp [hbEq]
          · simp [hwEq]
      · dsimp only
        have hmap : (updateFirst (fun x => x.class_id == b.class_id)
            (fun x : ClassRecord => {x with bookings := x.bookings + 1})
            st.classes).map (fun c => c.class_id)
            = st.classes.map (fun c => c.class_id) :=
          map_updateFirst _ _ (fun x => rfl)
        rw [hmap]
        exact hnd
      · intro dd hdd
        dsimp only at hdd ⊢
        have hmap : (updateFirst (fun x => x.class_id == b.class_id)
            (fun x : ClassRecord => {x with bookings := x.bookings + 1})
            st.classes).map (fun c => c.class_id)
            = st.classes.map (fun c => c.class_id) :=
          map_updateFirst _ _ (fun x => rfl)
        rw [hmap]
        unfold upsertPush at hdd
        by_cases hdf : (st.bookingDocs.find? fun d => d.class_id == b.class_id).isSome = true
        · rw [if_pos hdf] at hdd
          obtain ⟨d0, hfd⟩ := Option.isSome_iff_exists.mp hdf
          rcases mem_updateFirst_of_find? hfd hdd with h | hEq
          · exact hdc dd h
          · rw [hEq]
            exact hdc d0 (List.mem_of_find?_eq_some hfd)
        · rw [if_neg hdf] at hdd
          rcases List.mem_append.mp hdd with h | h
          · exact hdc dd h
          · have : dd = (⟨b.class_id, [{b with class_name := c.class_name}], []⟩ :
                BookingRecord) := by simpa using h
            rw [this]
            rw [← hcid]
            exact List.mem_map_of_mem (fun c => c.class_id) hcmem
      · intro dd hdd
        dsimp only at hdd
        unfold upsertPush at hdd
        by_cases hdf : (st.bookingDocs.find? fun d => d.class_id == b.class_id).isSome = true
        · rw [if_pos hdf] at hdd
          obtain ⟨d0, hfd⟩ := Option.isSome_iff_exists.mp hdf
          rcases mem_updateFirst_of_find? hfd hdd with h | hEq
          · exact hwn dd h
          · rw [hEq]
            exact hwn d0 (List.mem_of_find?_eq_some hfd)
        · rw [if_neg hdf] at hdd
          rcases List.mem_append.mp hdd with h | h
          · exact hwn dd h
          · have : dd = (⟨b.class_id, [{b with class_name := c.class_name}], []⟩ :
                BookingRecord) := by simpa using h
            rw [this]
            simp

theorem cancel_booking_preserves {st : Store} {cid uid : String}
    (hInv : EngineInv st) : EngineInv (cancel_booking st cid uid).1 := by
  obtain ⟨hsi, hnd, hdc, hwn⟩ := hInv
  cases hfd : st.bookingDocs.find? (fun d => d.class_id == cid) with
  | none =>
    unfold cancel_booking
    rw [hfd]
    exact ⟨hsi, hnd, hdc, hwn⟩
  | some d =>
    by_cases hm : (d.bookings.all fun r => !(r.user_id == uid)) = true
    · rw [cancel_booking_nomatch hfd hm]
      exact ⟨hsi, hnd, hdc, hwn⟩
    · have hm2 : (d.bookings.all fun r => !(r.user_id == uid)) = false := by
        simpa using hm
      have hdmem := List.mem_of_find?_eq_some hfd
      have hdcid := List.find?_some hfd
      have hdcidEq : d.class_id = cid := by simpa using hdcid
      obtain ⟨cc, hccmem, hccid⟩ := List.mem_map.mp (hdc d hdmem)
      obtain ⟨c, hfc⟩ : ∃ c, st.classes.find? (fun x => x.class_id == cid) = some c := by
        cases hh : st.classes.find? (fun x => x.class_id == cid) with
        | some c => exact ⟨c, rfl⟩
        | none =>
          have hcontra := List.find?_eq_none.mp hh cc hccmem
          rw [hccid, hdcidEq] at hcontra
          simp at hcontra
      have hcid : c.class_id = cid := by simpa using List.find?_some hfc
      have hcmem := List.mem_of_find?_eq_some hfc
      have hsome : (st.bookingDocs.find? fun x => x.class_id == cid).isSome = true := by
        rw [hfd]
        rfl
      have hco := (List.all_eq_true.mp hsi) c hcmem
      unfold classConsistent at hco
      rw [hcid, hfd] at hco
      obtain ⟨hb1, hw1⟩ := (Bool.and_eq_true _ _).mp hco
      have hbEq : c.bookings = (d.bookings.length : Int) := by simpa using hb1
      have hwEq : c.waitlist = (d.waitlist.length : Int) := by simpa using hw1
      cases hwl : d.waitlist with
      | nil =>
        rw [cancel_booking_run_nowait hfd hm2 hfc hwl]
        dsimp only
        refine ⟨?_, ?_, ?_, ?_⟩
        · have hcons : classConsistent (upsertPush cid
              (fun x => {x with bookings := x.bookings.filter fun r => !(r.user_id == uid)})
              d st.bookingDocs)
              ({c with bookings := c.bookings - ((d.bookings.length : Int)
                - ((d.bookings.filter fun r => !(r.user_id == uid)).length : Int))} :
                ClassRecord) = true := by
            unfold upsertPush
            rw [if_pos hsome]
            unfold classConsistent
            dsimp only
            rw [hcid]
            rw [find?_updateFirst_pos hfd (by simpa using hdcid)]
            dsimp only
            rw [Bool.and_eq_true]
            constructor
            · rw [beq_iff_eq]
              omega
            · rw [beq_iff_eq]
              exact hwEq
          have hSI := @storeInv_update st cid
            (fun x => {x with bookings := x.bookings - ((d.bookings.length : Int)
              - ((d.bookings.filter fun r => !(r.user_id == uid)).length : Int))})
            (fun x => {x with bookings := x.bookings.filter fun r => !(r.user_id == uid)})
            d c hsi hnd hfc (fun x => rfl) hdcidEq hcons
          unfold upsertPush at hSI
          rw [if_pos hsome] at hSI
          exact hSI
        · have hmap : (updateFirst (fun x => x.class_id == cid)
              (fun x : ClassRecord => {x with bookings := x.bookings - ((d.bookings.length : Int)
                - ((d.bookings.filter fun r => !(r.user_id == uid)).length : Int))})
              st.classes).map (fun c => c.class_id)
              = st.classes.map (fun c => c.class_id) :=
            map_updateFirst _ _ (fun x => rfl)
          rw [hmap]
          exact hnd
        · intro dd hdd
          have hmap : (updateFirst (fun x => x.class_id == cid)
              (fun x : ClassRecord => {x with bookings := x.bookings - ((d.bookings.length : Int)
                - ((d.bookings.filter fun r => !(r.user_id == uid)).length : Int))})
              st.classes).map (fun c => c.class_id)
              = st.classes.map (fun c => c.class_id) :=
            map_updateFirst _ _ (fun x => rfl)
          rw [hmap]
          rcases mem_updateFirst_of_find? hfd hdd with h | hEq
          · exact hdc dd h
          · rw [hEq]
            exact hdc d hdmem
        · intro dd hdd
          rcases mem_updateFirst_of_find? hfd hdd with h | hEq
          · exact hwn dd h
          · rw [hEq]
            exact hwn d hdmem
      | cons w0 ws0 =>
        have hwnd := hwn d hdmem
        rw [hwl] at hwnd
        have hw0 : w0 ∉ ws0 := (List.nodup_cons.mp hwnd).1
        have hfilter : d.waitlist.filter (fun r => !(r == w0)) = ws0 := by
          rw [hwl, List.filter_cons]
          simp only [beq_self_eq_true, Bool.not_true, Bool.false_eq_true, if_false]
          rw [List.filter_eq_self]
          intro a ha
          simp only [Bool.not_eq_true']
          rw [beq_eq_false_iff_ne]
          intro hEq
          exact hw0 (hEq ▸ ha)
        rw [cancel_booking_run_wait hfd hm2 hfc hwl]
        dsimp only
        refine ⟨?_, ?_, ?_, ?_⟩
        · have hcons : classConsistent (upsertPush cid
              (fun x => {x with
                bookings := (x.bookings.filter fun r => !(r.user_id == uid)) ++ [w0],
                waitlist := x.waitlist.filter fun r => !(r == w0)})
              d st.bookingDocs)
              ({c with
                waitlist := c.waitlist - 1,
                bookings := c.bookings - ((d.bookings.length : Int)
                  - ((d.bookings.filter fun r => !(r.user_id == uid)).length : Int)) + 1} :
                ClassRecord) = true := by
            unfold upsertPush
            rw [if_pos hsome]
            unfold classConsistent
            dsimp only
            rw [hcid]
            rw [find?_updateFirst_pos hfd (by simpa using hdcid)]
            dsimp only
            rw [Bool.and_eq_true]
            constructor
            · rw [beq_iff_eq]
              have hlen : (((d.bookings.filter fun r => !(r.user_id == uid)) ++ [w0]).length : Int)
                  = ((d.bookings.filter fun r => !(r.user_id == uid)).length : Int) + 1 := by
                simp
              rw [hlen]
              omega
            · rw [beq_iff_eq, hfilter, hwEq, hwl]
              simp
          have hSI := @storeInv_update st cid
            (fun x => {x with
              waitlist := x.waitlist - 1,
              bookings := x.bookings - ((d.bookings.length : Int)
                - ((d.bookings.filter fun r => !(r.user_id == uid)).length : Int)) + 1})
            (fun x => {x with
              bookings := (x.bookings.filter fun r => !(r.user_id == uid)) ++ [w0],
              waitlist := x.waitlist.filter fun r => !(r == w0)})
            d c hsi hnd hfc (fun x => rfl) hdcidEq hcons
          unfold upsertPush at hSI
          rw [if_pos hsome] at hSI
          exact hSI
        · have hmap : (updateFirst (fun x => x.class_id == cid)
              (fun x : ClassRecord => {x with
                waitlist := x.waitlist - 1,
                bookings := x.bookings - ((d.bookings.length : Int)
                  - ((d.bookings.filter fun r => !(r.user_id == uid)).length : Int)) + 1})
              st.classes).map (fun c => c.class_id)
              = st.classes.map (fun c => c.class_id) :=
            map_updateFirst _ _ (fun x => rfl)
          rw [hmap]
          exact hnd
        · intro dd hdd
          have hmap : (updateFirst (fun x => x.class_id == cid)
              (fun x : ClassRecord => {x with
                waitlist := x.waitlist - 1,
                bookings := x.bookings - ((d.bookings.length : Int)
                  - ((d.bookings.filter fun r => !(r.user_id == uid)).length : Int)) + 1})
              st.classes).map (fun c => c.class_id)
              = st.classes.map (fun c => c.class_id) :=
            map_updateFirst _ _ (fun x => rfl)
          rw [hmap]
          rcases mem_updateFirst_of_find? hfd hdd with h | hEq
          · exact hdc dd h
          · rw [hEq]
            exact hdc d hdmem
        · intro dd hdd
          rcases mem_updateFirst_of_find? hfd hdd with h | hEq
          · exact hwn dd h
          · rw [hEq]
            dsimp only
            exact List.Nodup.filter _ (hwn d hdmem)

theorem applyOp_preserves {st : Store} {op : Op}
    (hInv : EngineInv st) (hsafe : opSafe st op = true) :
    EngineInv (applyOp st op) := by
  cases op with
  | register cid cname cdesc icon color slots => exact create_class_preserves hInv rfl rfl
  | book b => exact book_slot_preserves hInv hsafe
  | cancel cid uid => exact cancel_booking_preserves hInv

theorem safeRun_preserves (ops : List Op) :
    ∀ st : Store, EngineInv st → safeRun st ops = true →
      EngineInv (ops.foldl applyOp st) := by
  induction ops with
  | nil =>
    intro st h _
    exact h
  | cons op rest ih =>
    intro st h hs
    rw [List.foldl_cons]
    have hsp := (Bool.and_eq_true _ _).mp (by simpa [safeRun] using hs)
    exact ih _ (applyOp_preserves h hsp.1) hsp.2

theorem safeRun_append_left (ops₁ ops₂ : List Op) :
    ∀ st : Store, safeRun st (ops₁ ++ ops₂) = true → safeRun st ops₁ = true := by
  induction ops₁ with
  | nil =>
    intro st _
    rfl
  | cons op rest ih =>
    intro st hs
    have hsp := (Bool.and_eq_true _ _).mp (by simpa [safeRun] using hs)
    have : safeRun st (op :: rest) = (opSafe st op && safeRun (applyOp st op) rest) := rfl
    rw [this, Bool.and_eq_true]
    exact ⟨hsp.1, ih _ hsp.2⟩

/-- C1 (amended): for every serial operation sequence from the empty store
in which no BookSlot call pushes a reservation document identical to one
already in that class's waitlist (`safeRun`), after each operation — that
is, after every prefix of the sequence — every class's `bookings` and
`waitlist` counters equal the lengths of the corresponding arrays of its
booking document (`storeInv`).  Without the duplicate-free restriction the
invariant fails: see the counterexample, where the promotion's `$pull`
removes both copies of a duplicated waitlist entry while decrementing the
counter by only 1. -/
theorem counters_match_lists (ops₁ ops₂ : List Op)
    (hsafe : safeRun emptyStore (ops₁ ++ ops₂) = true) :
    storeInv (runOps ops₁) = true :=
  (safeRun_preserves ops₁ emptyStore EngineInv_empty
    (safeRun_append_left ops₁ ops₂ emptyStore hsafe)).1

/-- Witness for the amended C1 on a concrete safe sequence. -/
theorem counters_match_lists_witness :
    safeRun emptyStore ([Op.register "c1" "Yoga" "d" "i" "c" 1,
      Op.book (sampleRes "c1" "u1"), Op.book (sampleRes "c1" "u2"),
      Op.cancel "c1" "u1"] ++ [Op.book (sampleRes "c1" "u2")]) = true ∧
    storeInv (runOps [Op.register "c1" "Yoga" "d" "i" "c" 1,
      Op.book (sampleRes "c1" "u1"), Op.book (sampleRes "c1" "u2"),
      Op.cancel "c1" "u1"]) = true :=
  ⟨by decide, counters_match_lists
    [Op.register "c1" "Yoga" "d" "i" "c" 1,
      Op.book (sampleRes "c1" "u1"), Op.book (sampleRes "c1" "u2"),
      Op.cancel "c1" "u1"]
    [Op.book (sampleRes "c1" "u2")] (by decide)⟩
